import Mathlib

/-!
Verification development for the hibana chat front end.

The definitions below are a shallow embedding of the two JavaScript source
files of the repository: the chat controller (the component holding
handleSendMessage and handleSubmit) and the wallet context (connectWallet,
disconnectWallet and the accountsChanged subscription).  External effects
(the backend call, the provider calls) are modelled as explicit oracle
arguments; React state updates are modelled as explicit state passing.
-/

namespace Hibana

/-! ### Character and string primitives

ASCII models of the JavaScript string operations used by the source:
String.prototype.trim, String.prototype.toUpperCase, String.prototype.includes,
and the character classes of the regex [a-fA-F0-9] and the regex shorthand for
decimal digits. -/

/-- Character class of the regex hex range: a-f, A-F, 0-9. -/
def isHexDigitChar (c : Char) : Bool :=
  (decide ('0' ≤ c) && decide (c ≤ '9'))
    || (decide ('a' ≤ c) && decide (c ≤ 'f'))
    || (decide ('A' ≤ c) && decide (c ≤ 'F'))

/-- Character class of the regex decimal-digit shorthand: 0-9. -/
def isDecDigitChar (c : Char) : Bool :=
  decide ('0' ≤ c) && decide (c ≤ '9')

/-- Whitespace characters removed by the JavaScript trim (ASCII subset). -/
def isSpaceChar (c : Char) : Bool :=
  c.toNat = 32 || c.toNat = 9 || c.toNat = 10
    || c.toNat = 13 || c.toNat = 11 || c.toNat = 12

/-- Model of JavaScript String.prototype.trim (ASCII whitespace). -/
def jsTrim (s : String) : String :=
  ⟨((s.data.dropWhile isSpaceChar).reverse.dropWhile isSpaceChar).reverse⟩

/-- Uppercase one character, as toUpperCase does on ASCII letters. -/
def toUpperChar (c : Char) : Char :=
  if decide ('a' ≤ c) && decide (c ≤ 'z') then Char.ofNat (c.toNat - 32) else c

/-- Model of JavaScript String.prototype.toUpperCase (ASCII letters). -/
def jsToUpper (s : String) : String :=
  ⟨s.data.map toUpperChar⟩

/-- Case-insensitive string equality: the two strings agree after
uppercasing.  Used only to state claims about confirmation matching. -/
def eqCaseInsensitive (a b : String) : Bool :=
  jsToUpper a == jsToUpper b

/-- Remove the pattern p from the front of l; none when p is not a prefix. -/
def dropPref : List Char → List Char → Option (List Char)
  | [], l => some l
  | _ :: _, [] => none
  | p :: ps, c :: cs => if p = c then dropPref ps cs else none

/-- Does pat occur at the start of l or of any suffix of l? -/
def containsAux (pat : List Char) : List Char → Bool
  | [] => (dropPref pat []).isSome
  | c :: rest => (dropPref pat (c :: rest)).isSome || containsAux pat rest

/-- Model of JavaScript String.prototype.includes. -/
def containsSubstring (s pat : String) : Bool :=
  containsAux pat.data s.data

/-! ### The tx_data marker

The source matches backend response text against the regex with literal
head tx_data, then a hex group, a hex group and a decimal group, each
introduced as in the source (see handleSendMessage).  The three plus
quantifiers are forced to maximal munch because each is followed by a
colon or the end of the pattern, so a deterministic takeWhile matcher with
leftmost scanning is an exact model of the JavaScript regex search. -/

/-- The three capture groups of the tx_data regex. -/
structure TxData where
  toAddress : String
  valueHex : String
  valueWei : String
deriving DecidableEq, Repr

/-- Try to match the tx_data pattern starting exactly at the head of l. -/
def matchTxAt (l : List Char) : Option TxData :=
  match dropPref "tx_data:0x".data l with
  | none => none
  | some r1 =>
    let addrDigits := r1.takeWhile isHexDigitChar
    let r2 := r1.dropWhile isHexDigitChar
    if addrDigits = [] then none
    else
      match dropPref ":0x".data r2 with
      | none => none
      | some r3 =>
        let valueDigits := r3.takeWhile isHexDigitChar
        let r4 := r3.dropWhile isHexDigitChar
        if valueDigits = [] then none
        else
          match dropPref ":".data r4 with
          | none => none
          | some r5 =>
            let weiDigits := r5.takeWhile isDecDigitChar
            if weiDigits = [] then none
            else some ⟨⟨'0' :: 'x' :: addrDigits⟩, ⟨'0' :: 'x' :: valueDigits⟩, ⟨weiDigits⟩⟩

/-- Leftmost match: try every start position from the left. -/
def findTxAux : List Char → Option TxData
  | [] => none
  | c :: rest =>
    match matchTxAt (c :: rest) with
    | some td => some td
    | none => findTxAux rest

/-- Model of the regex search of handleSendMessage over the response text. -/
def findTxData (s : String) : Option TxData :=
  findTxAux s.data

example : jsTrim "  Confirm " = "Confirm" := by decide

example : jsToUpper "confirm" = "CONFIRM" := by decide

example : findTxData "xx tx_data:0xAB12:0x5:5 tail" =
    some ⟨"0xAB12", "0x5", "5"⟩ := by decide

example : findTxData "tx_data:0xAB12:0x5:x" = none := by decide

example : containsSubstring "abc tx_data: zz" "tx_data:" = true := by decide

/-! ### WalletContext (src/chat-ui/src/contexts/WalletContext.js)

State of the wallet context: account, isConnecting, error.  Provider
availability (window.ethereum) is an environment fact, passed as an
explicit boolean; the result of the eth_requestAccounts call is passed as
an explicit oracle value. -/

/-- React state held by the WalletProvider component. -/
structure WalletState where
  account : Option String
  isConnecting : Bool
  error : Option String
deriving DecidableEq, Repr

/-- Resolution of an eth_requestAccounts (or eth_accounts) provider call:
either a list of accounts or a rejection carrying the error message
(the message may be empty, which JavaScript treats as falsy). -/
inductive RequestAccountsResult where
  | success (accounts : List String)
  | failure (message : String)
deriving DecidableEq, Repr

def metamaskMissingMessage : String :=
  "MetaMask is not installed. Please install MetaMask to connect your wallet."

def noAccountsMessage : String :=
  "No accounts found. Please create an account in MetaMask."

def connectFallbackMessage : String :=
  "Failed to connect to wallet"

/-- The synchronous head of connectWallet when a provider is available:
setIsConnecting(true); setError(null). -/
def connectWalletStart (s : WalletState) : WalletState :=
  { s with isConnecting := true, error := none }

/-- The remainder of connectWallet: the try block on the awaited
eth_requestAccounts result, the catch branch, and the finally branch that
clears isConnecting. -/
def connectWalletFinish (r : RequestAccountsResult) (s : WalletState) : WalletState :=
  match r with
  | .success accounts =>
    match accounts with
    | a :: _ => { s with account := some a, isConnecting := false }
    | [] => { s with error := some noAccountsMessage, isConnecting := false }
  | .failure m =>
    { s with
      error := some (if m = "" then connectFallbackMessage else m),
      isConnecting := false }

/-- Full connectWallet: the guard on provider availability, then the
start and finish phases. -/
def connectWallet (available : Bool) (r : RequestAccountsResult)
    (s : WalletState) : WalletState :=
  if available then connectWalletFinish r (connectWalletStart s)
  else { s with error := some metamaskMissingMessage }

/-- disconnectWallet: setAccount(null) and nothing else. -/
def disconnectWallet (s : WalletState) : WalletState :=
  { s with account := none }

/-- The accountsChanged handler: first account when the list is
non-empty, null otherwise. -/
def handleAccountsChanged (accounts : List String) (s : WalletState) : WalletState :=
  match accounts with
  | a :: _ => { s with account := some a }
  | [] => { s with account := none }

/-- Tag for a handler registered on the provider; the context registers a
single kind of handler. -/
inductive WalletListener where
  | accountsChanged
deriving DecidableEq, Repr

/-- The mount effect of the WalletProvider: when a provider is available,
register the accountsChanged listener and query eth_accounts, applying
handleAccountsChanged to its result (a failed query is only logged).
Returns the updated state and the updated provider listener registry. -/
def walletMount (available : Bool) (currentAccounts : Option (List String))
    (s : WalletState) (listeners : List WalletListener) :
    WalletState × List WalletListener :=
  if available then
    (match currentAccounts with
     | some accounts => handleAccountsChanged accounts s
     | none => s,
     listeners ++ [WalletListener.accountsChanged])
  else (s, listeners)

/-- The teardown of the mount effect: removeListener on the
accountsChanged handler. -/
def walletUnmount (available : Bool) (listeners : List WalletListener) :
    List WalletListener :=
  if available then listeners.erase WalletListener.accountsChanged
  else listeners

/-! ### Chat controller (the component of src/unnamed/part_000)

handleSendMessage and handleSubmit, with the backend call and the two
provider calls passed as oracle values and the React state passed
explicitly. -/

/-- Role of a rendered message. -/
inductive MsgType where
  | user
  | bot
deriving DecidableEq, Repr

/-- A conversation entry as stored in the messages state. -/
structure Message where
  text : String
  type : MsgType
deriving DecidableEq, Repr

/-- React state of the chat component that the claims are about. -/
structure ChatState where
  messages : List Message
  isLoading : Bool
  awaitingConfirmation : Bool
  pendingTransaction : Option String
deriving DecidableEq, Repr

/-- Environment visible to the component: provider presence and the
account value from the wallet context at this render. -/
structure Env where
  ethereum : Bool
  account : Option String
deriving DecidableEq, Repr

/-- Resolution of the fetch of the backend route: a network-level
failure, a response with non-2xx status (response.ok false, thrown and
caught), or a parsed body with its response text. -/
inductive BackendResult where
  | networkError
  | httpError
  | ok (response : String)
deriving DecidableEq, Repr

/-- Resolution of the eth_sendTransaction provider call. -/
inductive SendResult where
  | success (txHash : String)
  | failure (message : String)
deriving DecidableEq, Repr

/-- The parameter object passed to eth_sendTransaction. -/
structure TxParams where
  fromAddress : String
  toAddress : String
  value : String
  gas : String
deriving DecidableEq, Repr

def previewMarker : String := "Transaction Preview:"

def txDataMarker : String := "tx_data:"

def gasLimitHex : String := "0x5208"

def apologyMessage : String :=
  "Sorry, there was an error processing your request. Please try again."

def cancelMessage : String :=
  "Transaction cancelled. How else can I help you?"

def connectFailMessage : String :=
  "Failed to connect wallet. Please connect your wallet and try again."

def sendSuccessText (txHash : String) : String :=
  "Transaction sent successfully! Transaction hash: " ++ txHash

def sendErrorText (m : String) : String :=
  "Error sending transaction: " ++ m

/-- Everything handleSendMessage does in one call: the text it returns
(to be appended as the bot message), whether it called
setAwaitingConfirmation(true), the argument of setPendingTransaction if
called, and the eth_sendTransaction parameters if that call was issued. -/
structure SendOutcome where
  botText : String
  setAwaiting : Bool
  setPending : Option String
  sendCall : Option TxParams
deriving DecidableEq, Repr

/-- Model of handleSendMessage.  The two failure constructors of
BackendResult both land in the outer catch and produce the apology text;
on a parsed response the preview marker drives the two state setters, and
the tx_data branch fires only when the regex matches, a provider is
present and an account is connected (in that order, as in the source). -/
def handleSendMessage (env : Env) (backend : BackendResult)
    (send : SendResult) (text : String) : SendOutcome :=
  match backend with
  | .networkError => ⟨apologyMessage, false, none, none⟩
  | .httpError => ⟨apologyMessage, false, none, none⟩
  | .ok resp =>
    let aw := containsSubstring resp previewMarker
    let pend : Option String := if aw then some text else none
    if containsSubstring resp txDataMarker = true then
      match findTxData resp with
      | some td =>
        if env.ethereum = true then
          match env.account with
          | some acct =>
            let params : TxParams := ⟨acct, td.toAddress, td.valueHex, gasLimitHex⟩
            match send with
            | .success txHash => ⟨sendSuccessText txHash, aw, pend, some params⟩
            | .failure m => ⟨sendErrorText m, aw, pend, some params⟩
          | none => ⟨resp, aw, pend, none⟩
        else ⟨resp, aw, pend, none⟩
      | none => ⟨resp, aw, pend, none⟩
    else ⟨resp, aw, pend, none⟩

/-- Which branch of handleSubmit ran: blocked by the empty-input/loading
guard, the confirmation branch, the cancellation branch, or a fresh
message while not awaiting confirmation. -/
inductive SubmitBranch where
  | blocked
  | confirmProceed
  | cancelled
  | fresh
deriving DecidableEq, Repr

/-- Result of one handleSubmit turn: the final chat state, the branch
taken, whether eth_requestAccounts was issued, the eth_sendTransaction
parameters if issued, and the text sent to the backend if a backend call
was made. -/
structure SubmitResult where
  state : ChatState
  branch : SubmitBranch
  connectTried : Bool
  sendCall : Option TxParams
  backendSent : Option String
deriving DecidableEq, Repr

/-- setMessages appending one entry. -/
def appendMessage (s : ChatState) (text : String) (ty : MsgType) : ChatState :=
  { s with messages := s.messages ++ [⟨text, ty⟩] }

/-- Apply the state setters recorded in a SendOutcome (the source only
ever sets awaitingConfirmation to true from handleSendMessage). -/
def applyOutcome (s : ChatState) (o : SendOutcome) : ChatState :=
  { s with
    awaitingConfirmation := if o.setAwaiting then true else s.awaitingConfirmation,
    pendingTransaction :=
      match o.setPending with
      | some t => some t
      | none => s.pendingTransaction }

/-- Common tail of every path that awaited handleSendMessage: apply its
setters, append its returned text as the bot message, clear isLoading. -/
def finishTurn (s : ChatState) (o : SendOutcome) : ChatState :=
  { appendMessage (applyOutcome s o) o.botText .bot with isLoading := false }

/-- Model of handleSubmit.  Mirrors the source line by line: the
empty-input/loading guard, appending the user message and setting
isLoading, the confirmation branch keyed on toUpperCase equality with
CONFIRM, the connect-first sub-branch when no account is connected but a
provider exists (with its early returns), the cancellation branch, and
the plain branch for a fresh message. -/
def handleSubmit (env : Env) (backend : BackendResult) (send : SendResult)
    (reqAccounts : RequestAccountsResult) (s : ChatState)
    (inputText : String) : SubmitResult :=
  if jsTrim inputText = "" ∨ s.isLoading = true then
    ⟨s, .blocked, false, none, none⟩
  else
    let messageText := jsTrim inputText
    let s1 := appendMessage { s with isLoading := true } messageText .user
    if s.awaitingConfirmation = true then
      if jsToUpper messageText = "CONFIRM" then
        let s2 := { s1 with awaitingConfirmation := false }
        let pendingText := s2.pendingTransaction.getD ""
        if env.account = none ∧ env.ethereum = true then
          match reqAccounts with
          | .success accounts =>
            if accounts.length > 0 then
              let o := handleSendMessage env backend send pendingText
              ⟨finishTurn s2 o, .confirmProceed, true, o.sendCall, some pendingText⟩
            else
              let o := handleSendMessage env backend send pendingText
              ⟨finishTurn s2 o, .confirmProceed, true, o.sendCall, some pendingText⟩
          | .failure _ =>
            ⟨{ appendMessage s2 connectFailMessage .bot with isLoading := false },
             .confirmProceed, true, none, none⟩
        else
          let o := handleSendMessage env backend send pendingText
          ⟨finishTurn s2 o, .confirmProceed, false, o.sendCall, some pendingText⟩
      else
        ⟨{ appendMessage
            { s1 with awaitingConfirmation := false, pendingTransaction := none }
            cancelMessage .bot with isLoading := false },
         .cancelled, false, none, none⟩
    else
      let o := handleSendMessage env backend send messageText
      ⟨finishTurn s1 o, .fresh, false, o.sendCall, some messageText⟩

/-! ### Helper lemmas -/

theorem dropPref_append_isSome (p q l : List Char)
    (h : (dropPref (p ++ q) l).isSome = true) : (dropPref p l).isSome = true := by
  induction p generalizing l with
  | nil => simp [dropPref]
  | cons a ps ih =>
    cases l with
    | nil => simp [dropPref] at h
    | cons c cs =>
      simp only [List.cons_append, dropPref] at h ⊢
      by_cases hac : a = c
      · rw [if_pos hac] at h ⊢
        exact ih cs h
      · rw [if_neg hac] at h
        simp at h

theorem matchTxAt_isSome_dropPref (l : List Char) (td : TxData)
    (h : matchTxAt l = some td) : (dropPref "tx_data:".data l).isSome = true := by
  unfold matchTxAt at h
  cases hd : dropPref "tx_data:0x".data l with
  | none => rw [hd] at h; exact absurd h (by simp)
  | some r1 =>
    have h2 : (dropPref ("tx_data:".data ++ "0x".data) l).isSome = true := by
      rw [show "tx_data:".data ++ "0x".data = "tx_data:0x".data from by decide, hd]
      rfl
    exact dropPref_append_isSome _ _ _ h2

theorem findTxAux_contains (l : List Char) (td : TxData)
    (h : findTxAux l = some td) : containsAux "tx_data:".data l = true := by
  induction l with
  | nil => simp [findTxAux] at h
  | cons c rest ih =>
    unfold findTxAux at h
    cases hm : matchTxAt (c :: rest) with
    | some td2 =>
      have hp := matchTxAt_isSome_dropPref _ _ hm
      simp [containsAux, hp]
    | none =>
      rw [hm] at h
      simp [containsAux, ih h]

theorem contains_of_findTxData (s : String) (td : TxData)
    (h : findTxData s = some td) : containsSubstring s txDataMarker = true :=
  findTxAux_contains _ _ h

theorem handleSendMessage_ok_noAccount (env : Env) (resp : String)
    (send : SendResult) (text : String) (hacct : env.account = none) :
    handleSendMessage env (.ok resp) send text =
      ⟨resp, containsSubstring resp previewMarker,
       if containsSubstring resp previewMarker then some text else none, none⟩ := by
  by_cases hc : containsSubstring resp txDataMarker = true
  · cases hf : findTxData resp with
    | none => simp [handleSendMessage, hc, hf]
    | some td =>
      by_cases he : env.ethereum = true
      · simp [handleSendMessage, hc, hf, he, hacct]
      · simp [handleSendMessage, hc, hf, he]
  · simp [handleSendMessage, hc]

theorem handleSendMessage_sendCall_noAccount (env : Env)
    (backend : BackendResult) (send : SendResult) (text : String)
    (hacct : env.account = none) :
    (handleSendMessage env backend send text).sendCall = none := by
  cases backend with
  | networkError => rfl
  | httpError => rfl
  | ok resp => rw [handleSendMessage_ok_noAccount env resp send text hacct]

theorem handleSendMessage_bad_backend (env : Env) (backend : BackendResult)
    (send : SendResult) (text : String)
    (hb : backend = .networkError ∨ backend = .httpError) :
    handleSendMessage env backend send text = ⟨apologyMessage, false, none, none⟩ := by
  rcases hb with hb | hb <;> subst hb <;> rfl

theorem handleSendMessage_setPending (env : Env) (backend : BackendResult)
    (send : SendResult) (text : String) :
    (handleSendMessage env backend send text).setPending = none ∨
    (handleSendMessage env backend send text).setPending = some text := by
  cases backend with
  | networkError => exact Or.inl rfl
  | httpError => exact Or.inl rfl
  | ok resp =>
    by_cases hp : containsSubstring resp previewMarker = true
    all_goals by_cases hc : containsSubstring resp txDataMarker = true
    all_goals cases hf : findTxData resp
    all_goals by_cases he : env.ethereum = true
    all_goals cases hacct : env.account
    all_goals cases send
    all_goals simp [handleSendMessage, hp, hc, hf, he, hacct]

theorem erase_append_singleton {α : Type} [DecidableEq α] (a : α)
    (ls : List α) (h : a ∉ ls) : (ls ++ [a]).erase a = ls := by
  induction ls with
  | nil => simp
  | cons b bs ih =>
    have hba : ¬(b = a) := by
      intro he
      exact h (by simp [he])
    have hm : a ∉ bs := fun hm => h (List.mem_cons_of_mem _ hm)
    simp [List.erase_cons, hba, ih hm]

/-! ### Claim theorems: wallet session -/

/-- Claim C4, counterexample to the rejection clause as stated: when the
provider rejects with an empty error message, lastError is set to the
fixed fallback text, not to the message of the provider. -/
theorem connect_error_message_counterexample :
    (connectWallet true (.failure "") ⟨none, false, none⟩).error ≠ some "" := by
  decide

/-- Claim C4 (amended): for every execution of connect() with a provider
detectable, connecting is set true at the start and cleared on every
completion path; on success the address is the first returned account and
the error is cleared; on an empty account list the no-accounts error is
set and the address is untouched; on provider rejection lastError is the
error message of the provider, or the fixed fallback text when that
message is empty. -/
theorem connectWallet_flow (s : WalletState) :
    (connectWalletStart s).isConnecting = true ∧
    (connectWalletStart s).error = none ∧
    (∀ r, (connectWallet true r s).isConnecting = false) ∧
    (∀ a rest, connectWallet true (.success (a :: rest)) s =
      { s with account := some a, isConnecting := false, error := none }) ∧
    (connectWallet true (.success []) s =
      { s with isConnecting := false, error := some noAccountsMessage }) ∧
    (∀ m, (connectWallet true (.failure m) s).error =
      some (if m = "" then connectFallbackMessage else m)) ∧
    (∀ m, (connectWallet true (.failure m) s).account = s.account) := by
  refine ⟨rfl, rfl, ?_, ?_, ?_, ?_, ?_⟩
  · intro r
    cases r with
    | success accounts =>
      cases accounts <;>
        simp [connectWallet, connectWalletStart, connectWalletFinish]
    | failure m => simp [connectWallet, connectWalletStart, connectWalletFinish]
  · intro a rest
    simp [connectWallet, connectWalletStart, connectWalletFinish]
  · simp [connectWallet, connectWalletStart, connectWalletFinish]
  · intro m
    simp [connectWallet, connectWalletStart, connectWalletFinish]
  · intro m
    simp [connectWallet, connectWalletStart, connectWalletFinish]

/-- Claim C6: on mount with a provider available the session queries the
current accounts and applies the first-account-or-none rule without
touching the connecting flag, registers the accountsChanged listener, the
listener applies the same rule on every notification (empty list clears
the address), and teardown removes the registered listener. -/
theorem wallet_subscription (s : WalletState) (ls : List WalletListener)
    (current : List String)
    (hfresh : WalletListener.accountsChanged ∉ ls) :
    (walletMount true (some current) s ls).1.isConnecting = s.isConnecting ∧
    (walletMount true (some current) s ls).1.account = current.head? ∧
    (walletMount true (some current) s ls).2 =
      ls ++ [WalletListener.accountsChanged] ∧
    (∀ (accounts : List String) (s2 : WalletState),
      (handleAccountsChanged accounts s2).account = accounts.head? ∧
      (handleAccountsChanged accounts s2).isConnecting = s2.isConnecting ∧
      (handleAccountsChanged accounts s2).error = s2.error) ∧
    walletUnmount true (walletMount true (some current) s ls).2 = ls := by
  refine ⟨?_, ?_, rfl, ?_, ?_⟩
  · cases current <;> simp [walletMount, handleAccountsChanged]
  · cases current <;> simp [walletMount, handleAccountsChanged]
  · intro accounts s2
    cases accounts <;> simp [handleAccountsChanged]
  · show walletUnmount true (ls ++ [WalletListener.accountsChanged]) = ls
    simp only [walletUnmount, if_pos rfl]
    exact erase_append_singleton _ ls hfresh

/-- Witness for C6 at a concrete mount: two current accounts, an empty
prior registry, and a later notification with an empty list. -/
theorem wallet_subscription_witness :
    (walletMount true (some ["0xabc", "0xdef"]) ⟨none, false, none⟩ []).1.isConnecting
        = false ∧
    (walletMount true (some ["0xabc", "0xdef"]) ⟨none, false, none⟩ []).1.account
        = some "0xabc" ∧
    (handleAccountsChanged [] ⟨some "0xzz", false, none⟩).account = none ∧
    walletUnmount true
        (walletMount true (some ["0xabc", "0xdef"]) ⟨none, false, none⟩ []).2 = [] := by
  have h := wallet_subscription ⟨none, false, none⟩ [] ["0xabc", "0xdef"]
    (by simp)
  exact ⟨h.1, h.2.1, (h.2.2.2.1 [] ⟨some "0xzz", false, none⟩).1, h.2.2.2.2⟩

/-- Claim C7: disconnect clears the address, changes nothing else of the
wallet state, and is idempotent. -/
theorem disconnect_local_and_idempotent (s : WalletState) :
    (disconnectWallet s).account = none ∧
    (disconnectWallet s).isConnecting = s.isConnecting ∧
    (disconnectWallet s).error = s.error ∧
    disconnectWallet (disconnectWallet s) = disconnectWallet s := by
  simp [disconnectWallet]

/-! ### Claim theorems: handleSendMessage -/

/-- Claim C1: when the response text matches the tx_data pattern, a
provider is present and an account is connected, handleSendMessage issues
eth_sendTransaction with from the connected account, to the matched
address, value the matched hex value and gas 0x5208; on a provider
txHash the returned bot text is the success text with that hash, and on
provider failure it is the error text with the message of the provider. -/
theorem txRelay_params_and_result (acct resp text : String)
    (send : SendResult) (td : TxData) (h : findTxData resp = some td) :
    (handleSendMessage ⟨true, some acct⟩ (.ok resp) send text).sendCall =
      some ⟨acct, td.toAddress, td.valueHex, gasLimitHex⟩ ∧
    (∀ txHash, send = .success txHash →
      (handleSendMessage ⟨true, some acct⟩ (.ok resp) send text).botText =
        sendSuccessText txHash) ∧
    (∀ m, send = .failure m →
      (handleSendMessage ⟨true, some acct⟩ (.ok resp) send text).botText =
        sendErrorText m) := by
  have hc := contains_of_findTxData resp td h
  cases send with
  | success txHash =>
    refine ⟨?_, ?_, ?_⟩ <;> simp [handleSendMessage, hc, h]
  | failure m =>
    refine ⟨?_, ?_, ?_⟩ <;> simp [handleSendMessage, hc, h]

/-- Witness for C1 at a concrete response, account and provider result. -/
theorem txRelay_params_and_result_witness :
    (handleSendMessage ⟨true, some "0xACC"⟩ (.ok "Preview tx_data:0xAB12:0x5:5")
        (.success "0xHASH") "send 5").sendCall =
      some ⟨"0xACC", "0xAB12", "0x5", gasLimitHex⟩ ∧
    (handleSendMessage ⟨true, some "0xACC"⟩ (.ok "Preview tx_data:0xAB12:0x5:5")
        (.success "0xHASH") "send 5").botText = sendSuccessText "0xHASH" := by
  have h := txRelay_params_and_result "0xACC" "Preview tx_data:0xAB12:0x5:5"
    "send 5" (.success "0xHASH") ⟨"0xAB12", "0x5", "5"⟩ (by decide)
  exact ⟨h.1, h.2.1 "0xHASH" rfl⟩

/-- Claim C3: a response containing the preview marker while no account
is connected makes handleSendMessage set awaitingConfirmation, remember
the submitted request text as the pending transaction, and issue no
eth_sendTransaction call, whatever else the response contains. -/
theorem preview_no_account_awaits (env : Env) (send : SendResult)
    (resp text : String) (hacct : env.account = none)
    (hprev : containsSubstring resp previewMarker = true) :
    (handleSendMessage env (.ok resp) send text).setAwaiting = true ∧
    (handleSendMessage env (.ok resp) send text).setPending = some text ∧
    (handleSendMessage env (.ok resp) send text).sendCall = none ∧
    (∀ s : ChatState,
      (applyOutcome s (handleSendMessage env (.ok resp) send text)).awaitingConfirmation
        = true ∧
      (applyOutcome s (handleSendMessage env (.ok resp) send text)).pendingTransaction
        = some text) := by
  rw [handleSendMessage_ok_noAccount env resp send text hacct]
  simp [applyOutcome, hprev]

/-- Witness for C3: a response holding both the preview marker and a
well-formed tx_data marker, with a provider present but no account. -/
theorem preview_no_account_awaits_witness :
    (handleSendMessage ⟨true, none⟩
        (.ok "Transaction Preview: 5 FLR tx_data:0xAB12:0x5:5")
        (.success "0xHASH") "send 5").setAwaiting = true ∧
    (handleSendMessage ⟨true, none⟩
        (.ok "Transaction Preview: 5 FLR tx_data:0xAB12:0x5:5")
        (.success "0xHASH") "send 5").setPending = some "send 5" ∧
    (handleSendMessage ⟨true, none⟩
        (.ok "Transaction Preview: 5 FLR tx_data:0xAB12:0x5:5")
        (.success "0xHASH") "send 5").sendCall = none ∧
    (applyOutcome ⟨[], true, false, none⟩
        (handleSendMessage ⟨true, none⟩
          (.ok "Transaction Preview: 5 FLR tx_data:0xAB12:0x5:5")
          (.success "0xHASH") "send 5")).awaitingConfirmation = true := by
  have h := preview_no_account_awaits ⟨true, none⟩ (.success "0xHASH")
    "Transaction Preview: 5 FLR tx_data:0xAB12:0x5:5" "send 5" rfl (by decide)
  exact ⟨h.1, h.2.1, h.2.2.1, (h.2.2.2 ⟨[], true, false, none⟩).1⟩

/-- Claim C9: a response containing the tx_data literal that does not
match the full pattern is silently skipped: no eth_sendTransaction call,
and the raw response text is returned unchanged as the bot message. -/
theorem malformed_txdata_ignored (env : Env) (send : SendResult)
    (text resp : String)
    (hmark : containsSubstring resp txDataMarker = true)
    (hmatch : findTxData resp = none) :
    (handleSendMessage env (.ok resp) send text).sendCall = none ∧
    (handleSendMessage env (.ok resp) send text).botText = resp := by
  simp [handleSendMessage, hmark, hmatch]

/-- Witness for C9: a malformed marker with a provider and an account
both present. -/
theorem malformed_txdata_ignored_witness :
    (handleSendMessage ⟨true, some "0xACC"⟩ (.ok "tx_data:oops")
        (.success "0xHASH") "send 5").sendCall = none ∧
    (handleSendMessage ⟨true, some "0xACC"⟩ (.ok "tx_data:oops")
        (.success "0xHASH") "send 5").botText = "tx_data:oops" := by
  exact malformed_txdata_ignored ⟨true, some "0xACC"⟩ (.success "0xHASH")
    "send 5" "tx_data:oops" (by decide) (by decide)

/-! ### Helper lemmas on handleSubmit -/

theorem handleSubmit_cancel_eq (env : Env) (backend : BackendResult)
    (send : SendResult) (req : RequestAccountsResult) (s : ChatState)
    (input : String)
    (haw : s.awaitingConfirmation = true) (hload : s.isLoading = false)
    (hne : jsTrim input ≠ "")
    (htok : ¬jsToUpper (jsTrim input) = "CONFIRM") :
    handleSubmit env backend send req s input =
      ⟨⟨s.messages ++ [⟨jsTrim input, .user⟩, ⟨cancelMessage, .bot⟩],
        false, false, none⟩, .cancelled, false, none, none⟩ := by
  simp only [handleSubmit]
  rw [if_neg (by simp [hne, hload]), if_pos haw, if_neg htok]
  simp [appendMessage]

theorem handleSubmit_confirm_branch (env : Env) (backend : BackendResult)
    (send : SendResult) (req : RequestAccountsResult) (s : ChatState)
    (input : String)
    (haw : s.awaitingConfirmation = true) (hload : s.isLoading = false)
    (hne : jsTrim input ≠ "")
    (htok : jsToUpper (jsTrim input) = "CONFIRM") :
    (handleSubmit env backend send req s input).branch = .confirmProceed := by
  simp only [handleSubmit]
  rw [if_neg (by simp [hne, hload]), if_pos haw, if_pos htok]
  by_cases hconn : env.account = none ∧ env.ethereum = true
  · rw [if_pos hconn]
    cases req with
    | success accounts => by_cases hlen : accounts.length > 0 <;> simp [hlen]
    | failure m => rfl
  · rw [if_neg hconn]

theorem handleSubmit_confirm_noconnect_eq (env : Env) (backend : BackendResult)
    (send : SendResult) (req : RequestAccountsResult) (s : ChatState)
    (input : String) (t : String)
    (haw : s.awaitingConfirmation = true) (hload : s.isLoading = false)
    (hne : jsTrim input ≠ "")
    (htok : jsToUpper (jsTrim input) = "CONFIRM")
    (hpend : s.pendingTransaction = some t)
    (hconn : ¬(env.account = none ∧ env.ethereum = true)) :
    handleSubmit env backend send req s input =
      ⟨finishTurn ⟨s.messages ++ [⟨jsTrim input, .user⟩], true, false, some t⟩
        (handleSendMessage env backend send t),
       .confirmProceed, false,
       (handleSendMessage env backend send t).sendCall, some t⟩ := by
  simp only [handleSubmit]
  rw [if_neg (by simp [hne, hload]), if_pos haw, if_pos htok, if_neg hconn]
  simp [appendMessage, hpend]

/-! ### Claim theorems: handleSubmit -/

/-- Claim C2, counterexample as stated: a whitespace-only submission
while awaiting confirmation is not the CONFIRM token, yet it does not
cancel: the guard ignores it, nothing is appended, the controller stays
in AwaitingConfirmation and the pending transaction is retained. -/
theorem blank_confirmation_input_counterexample :
    eqCaseInsensitive (jsTrim "   ") "CONFIRM" = false ∧
    (handleSubmit ⟨false, none⟩ (.ok "ok") (.success "0xHASH") (.success [])
        ⟨[], false, true, some "send 1"⟩ "   ").state.awaitingConfirmation
      = true ∧
    (handleSubmit ⟨false, none⟩ (.ok "ok") (.success "0xHASH") (.success [])
        ⟨[], false, true, some "send 1"⟩ "   ").state.messages = [] ∧
    (handleSubmit ⟨false, none⟩ (.ok "ok") (.success "0xHASH") (.success [])
        ⟨[], false, true, some "send 1"⟩ "   ").state.pendingTransaction
      = some "send 1" := by
  decide

/-- Claim C2 (amended): while awaiting confirmation, a submission whose
trimmed text is empty is ignored by the input guard (nothing appended,
state unchanged, still awaiting); a submission with non-empty trimmed
text proceeds to the confirmation path exactly when the trimmed input
equals CONFIRM case-insensitively, and every other non-empty input takes
the cancellation branch, which leaves the confirmation state, clears the
pending transaction, appends the fixed cancellation bot message and
returns to idle. -/
theorem confirm_token_exact (env : Env) (backend : BackendResult)
    (send : SendResult) (req : RequestAccountsResult) (s : ChatState)
    (input : String)
    (haw : s.awaitingConfirmation = true) (hload : s.isLoading = false) :
    (jsTrim input = "" →
      handleSubmit env backend send req s input =
        ⟨s, .blocked, false, none, none⟩) ∧
    (jsTrim input ≠ "" →
      ((handleSubmit env backend send req s input).branch = .confirmProceed ↔
        eqCaseInsensitive (jsTrim input) "CONFIRM" = true) ∧
      (eqCaseInsensitive (jsTrim input) "CONFIRM" = false →
        handleSubmit env backend send req s input =
          ⟨⟨s.messages ++ [⟨jsTrim input, .user⟩, ⟨cancelMessage, .bot⟩],
            false, false, none⟩, .cancelled, false, none, none⟩)) := by
  have hci : eqCaseInsensitive (jsTrim input) "CONFIRM" =
      (jsToUpper (jsTrim input) == "CONFIRM") := by
    unfold eqCaseInsensitive
    rw [show jsToUpper "CONFIRM" = "CONFIRM" from by decide]
  constructor
  · intro he
    simp [handleSubmit, he]
  · intro hne
    by_cases htok : jsToUpper (jsTrim input) = "CONFIRM"
    · have h1 := handleSubmit_confirm_branch env backend send req s input
        haw hload hne htok
      constructor
      · simp [h1, hci, htok]
      · intro hfalse
        rw [hci] at hfalse
        simp [htok] at hfalse
    · have h2 := handleSubmit_cancel_eq env backend send req s input
        haw hload hne htok
      constructor
      · simp [h2, hci, htok]
      · intro _
        exact h2

/-- Witness for the amended C2 at an input that contains confirm only as
a substring, so the turn cancels. -/
theorem confirm_token_exact_witness :
    (jsTrim "please confirm" = "" →
      handleSubmit ⟨false, none⟩ .networkError (.success "0xHASH")
        (.success []) ⟨[], false, true, some "send 1"⟩ "please confirm" =
        ⟨⟨[], false, true, some "send 1"⟩, .blocked, false, none, none⟩) ∧
    (jsTrim "please confirm" ≠ "" →
      ((handleSubmit ⟨false, none⟩ .networkError (.success "0xHASH")
          (.success []) ⟨[], false, true, some "send 1"⟩
          "please confirm").branch = .confirmProceed ↔
        eqCaseInsensitive (jsTrim "please confirm") "CONFIRM" = true) ∧
      (eqCaseInsensitive (jsTrim "please confirm") "CONFIRM" = false →
        handleSubmit ⟨false, none⟩ .networkError (.success "0xHASH")
          (.success []) ⟨[], false, true, some "send 1"⟩ "please confirm" =
          ⟨⟨[] ++ [⟨jsTrim "please confirm", .user⟩, ⟨cancelMessage, .bot⟩],
            false, false, none⟩, .cancelled, false, none, none⟩)) := by
  exact confirm_token_exact ⟨false, none⟩ .networkError (.success "0xHASH")
    (.success []) ⟨[], false, true, some "send 1"⟩ "please confirm" rfl rfl

/-- Claim C5, counterexample as stated: after the user confirms, the
stored pending transaction is not cleared (it remains the pending text),
so it is not the case that both branches leave it null. -/
theorem pending_retained_counterexample :
    (handleSubmit ⟨false, none⟩ (.ok "hi") (.success "0xHASH") (.success [])
        ⟨[], false, true, some "send 5 FLR"⟩ "CONFIRM").branch
      = .confirmProceed ∧
    (handleSubmit ⟨false, none⟩ (.ok "hi") (.success "0xHASH") (.success [])
        ⟨[], false, true, some "send 5 FLR"⟩ "CONFIRM").state.pendingTransaction
      ≠ none := by
  decide

/-- Claim C5 (amended): at most one pending transaction exists at a time
(it is a single optional field); it is cleared when the user cancels, but
on confirm it is retained: the state after the confirm branch still holds
the pending text (re-set to the same text when the resubmitted response
previews again). -/
theorem pending_cleared_only_on_cancel (env : Env) (backend : BackendResult)
    (send : SendResult) (req : RequestAccountsResult) (s : ChatState)
    (input : String) (t : String)
    (haw : s.awaitingConfirmation = true) (hload : s.isLoading = false)
    (hpend : s.pendingTransaction = some t) (hne : jsTrim input ≠ "") :
    (jsToUpper (jsTrim input) = "CONFIRM" →
      (handleSubmit env backend send req s input).state.pendingTransaction
        = some t) ∧
    (¬jsToUpper (jsTrim input) = "CONFIRM" →
      (handleSubmit env backend send req s input).state.pendingTransaction
        = none) := by
  constructor
  · intro htok
    simp only [handleSubmit]
    rw [if_neg (by simp [hne, hload]), if_pos haw, if_pos htok]
    by_cases hconn : env.account = none ∧ env.ethereum = true
    · rw [if_pos hconn]
      cases req with
      | failure m => simp [appendMessage, hpend]
      | success accounts =>
        rcases handleSendMessage_setPending env backend send t with hsp | hsp <;>
          split <;>
          simp [finishTurn, applyOutcome, appendMessage, hpend, hsp]
    · rw [if_neg hconn]
      rcases handleSendMessage_setPending env backend send t with hsp | hsp <;>
        simp [finishTurn, applyOutcome, appendMessage, hpend, hsp]
  · intro htok
    rw [handleSubmit_cancel_eq env backend send req s input haw hload hne htok]

/-- Witness for the amended C5: confirming retains the pending text,
cancelling would clear it, at a concrete state and input. -/
theorem pending_cleared_only_on_cancel_witness :
    (jsToUpper (jsTrim " confirm ") = "CONFIRM" →
      (handleSubmit ⟨false, none⟩ (.ok "ok") (.success "0xHASH") (.success [])
          ⟨[], false, true, some "send 5 FLR"⟩
          " confirm ").state.pendingTransaction = some "send 5 FLR") ∧
    (¬jsToUpper (jsTrim " confirm ") = "CONFIRM" →
      (handleSubmit ⟨false, none⟩ (.ok "ok") (.success "0xHASH") (.success [])
          ⟨[], false, true, some "send 5 FLR"⟩
          " confirm ").state.pendingTransaction = none) := by
  exact pending_cleared_only_on_cancel ⟨false, none⟩ (.ok "ok")
    (.success "0xHASH") (.success []) ⟨[], false, true, some "send 5 FLR"⟩
    " confirm " "send 5 FLR" rfl rfl rfl (by decide)

/-- Claim C8: whenever the backend call of a turn fails (network error or
non-2xx status), the turn appends the fixed apology bot message after the
user message, clears the loading flag and leaves the controller idle. -/
theorem backend_failure_apology (env : Env) (backend : BackendResult)
    (send : SendResult) (req : RequestAccountsResult) (s : ChatState)
    (input : String)
    (hb : backend = .networkError ∨ backend = .httpError)
    (hsent : (handleSubmit env backend send req s input).backendSent ≠ none) :
    (handleSubmit env backend send req s input).state.messages =
      s.messages ++ [⟨jsTrim input, .user⟩, ⟨apologyMessage, .bot⟩] ∧
    (handleSubmit env backend send req s input).state.isLoading = false ∧
    (handleSubmit env backend send req s input).state.awaitingConfirmation
      = false := by
  have hmsg : ∀ text, handleSendMessage env backend send text =
      ⟨apologyMessage, false, none, none⟩ :=
    fun text => handleSendMessage_bad_backend env backend send text hb
  by_cases hguard : jsTrim input = "" ∨ s.isLoading = true
  · exfalso
    apply hsent
    simp [handleSubmit, hguard]
  · have hne : jsTrim input ≠ "" := fun h => hguard (Or.inl h)
    have hload : s.isLoading = false := by
      cases hl : s.isLoading
      · rfl
      · exact absurd (Or.inr hl) hguard
    by_cases haw : s.awaitingConfirmation = true
    · by_cases htok : jsToUpper (jsTrim input) = "CONFIRM"
      · simp only [handleSubmit]
        rw [if_neg hguard, if_pos haw, if_pos htok]
        by_cases hconn : env.account = none ∧ env.ethereum = true
        · rw [if_pos hconn]
          cases req with
          | failure m =>
            exfalso
            apply hsent
            simp only [handleSubmit]
            rw [if_neg hguard, if_pos haw, if_pos htok, if_pos hconn]
          | success accounts =>
            by_cases hlen : accounts.length > 0 <;>
              simp [hlen, hmsg, finishTurn, applyOutcome, appendMessage]
        · rw [if_neg hconn]
          simp [hmsg, finishTurn, applyOutcome, appendMessage]
      · exfalso
        apply hsent
        rw [handleSubmit_cancel_eq env backend send req s input haw hload hne htok]
    · have hawf : s.awaitingConfirmation = false := by
        cases h2 : s.awaitingConfirmation
        · rfl
        · exact absurd h2 haw
      simp only [handleSubmit]
      rw [if_neg hguard, if_neg haw]
      simp [hmsg, finishTurn, applyOutcome, appendMessage, hawf]

/-- Witness for C8 at a concrete failing backend call. -/
theorem backend_failure_apology_witness :
    (handleSubmit ⟨false, none⟩ .networkError (.success "0xHASH")
        (.success []) ⟨[], false, false, none⟩ "hello").state.messages =
      [] ++ [⟨jsTrim "hello", .user⟩, ⟨apologyMessage, .bot⟩] ∧
    (handleSubmit ⟨false, none⟩ .networkError (.success "0xHASH")
        (.success []) ⟨[], false, false, none⟩ "hello").state.isLoading
      = false ∧
    (handleSubmit ⟨false, none⟩ .networkError (.success "0xHASH")
        (.success []) ⟨[], false, false, none⟩
        "hello").state.awaitingConfirmation = false := by
  exact backend_failure_apology ⟨false, none⟩ .networkError (.success "0xHASH")
    (.success []) ⟨[], false, false, none⟩ "hello" (Or.inl rfl) (by decide)

/-- Claim C10: confirming while no account is connected and no provider
exists skips the connect-first step, resubmits the pending text as a
fresh backend call, appends only the user message and the text returned
by that call (no failure or install-prompt message), and issues no
eth_sendTransaction call. -/
theorem confirm_no_provider_resubmits (env : Env) (backend : BackendResult)
    (send : SendResult) (req : RequestAccountsResult) (s : ChatState)
    (input : String) (t : String)
    (heth : env.ethereum = false) (hacct : env.account = none)
    (haw : s.awaitingConfirmation = true) (hload : s.isLoading = false)
    (hpend : s.pendingTransaction = some t)
    (htok : jsToUpper (jsTrim input) = "CONFIRM") :
    (handleSubmit env backend send req s input).connectTried = false ∧
    (handleSubmit env backend send req s input).backendSent = some t ∧
    (handleSubmit env backend send req s input).sendCall = none ∧
    (handleSubmit env backend send req s input).state.messages =
      s.messages ++ [⟨jsTrim input, .user⟩,
        ⟨(handleSendMessage env backend send t).botText, .bot⟩] := by
  have hne : jsTrim input ≠ "" := by
    intro he
    rw [he] at htok
    exact absurd htok (by decide)
  have hconn : ¬(env.account = none ∧ env.ethereum = true) := by
    intro hc
    rw [heth] at hc
    exact absurd hc.2 (by decide)
  rw [handleSubmit_confirm_noconnect_eq env backend send req s input t
    haw hload hne htok hpend hconn]
  refine ⟨rfl, rfl, ?_, ?_⟩
  · exact handleSendMessage_sendCall_noAccount env backend send t hacct
  · simp [finishTurn, applyOutcome, appendMessage]

/-- Witness for C10 at a concrete state with neither account nor
provider. -/
theorem confirm_no_provider_resubmits_witness :
    (handleSubmit ⟨false, none⟩ (.ok "All done") (.success "0xHASH")
        (.failure "denied") ⟨[], false, true, some "send 9 FLR"⟩
        "Confirm").connectTried = false ∧
    (handleSubmit ⟨false, none⟩ (.ok "All done") (.success "0xHASH")
        (.failure "denied") ⟨[], false, true, some "send 9 FLR"⟩
        "Confirm").backendSent = some "send 9 FLR" ∧
    (handleSubmit ⟨false, none⟩ (.ok "All done") (.success "0xHASH")
        (.failure "denied") ⟨[], false, true, some "send 9 FLR"⟩
        "Confirm").sendCall = none ∧
    (handleSubmit ⟨false, none⟩ (.ok "All done") (.success "0xHASH")
        (.failure "denied") ⟨[], false, true, some "send 9 FLR"⟩
        "Confirm").state.messages =
      [] ++ [⟨jsTrim "Confirm", .user⟩,
        ⟨(handleSendMessage ⟨false, none⟩ (.ok "All done") (.success "0xHASH")
            "send 9 FLR").botText, .bot⟩] := by
  exact confirm_no_provider_resubmits ⟨false, none⟩ (.ok "All done")
    (.success "0xHASH") (.failure "denied") ⟨[], false, true, some "send 9 FLR"⟩
    "Confirm" "send 9 FLR" rfl rfl rfl rfl rfl (by decide)

end Hibana
